import Mathlib

/-!
Verification development for the `cadet` single-endpoint HTTP-RPC dispatcher.

The Go sources (`cadet.go`, `request.go`, `response.go`, `cors.go`) are embedded
shallowly: every function below is a direct translation of the corresponding Go
function.  Mutable server state (`*Server[T]`) is passed explicitly; the HTTP
transport is modelled by an explicit request record and a response-writer
record; `encoding/json.Unmarshal` into the `Command` struct is an external
collaborator and is therefore a parameter (`parse`) of the dispatch functions.
The dispatcher additionally returns a trace of `Event`s marking the points
where the Go code attempts envelope decoding, invokes a registered handler and
applies a response directive, so that ordering and exactly-once properties can
be stated.
-/

set_option maxHeartbeats 1000000

/-- The `ContentType` enumeration (`cadet.go` lines 13-19). -/
inductive ContentType where
  | unknown
  | multipart
  | json
deriving DecidableEq, Repr

/-- Struct `Config` (`cadet.go` lines 21-24): bind address and command path.
Field names follow the Go struct. -/
structure Config where
  Bind : String
  Path : String
deriving DecidableEq, Repr

/-- The command envelope struct (`cadet.go` lines 28-31): `Name` is the command
name, `Data` the raw JSON payload bytes (`json.RawMessage`), modelled as the
raw string of bytes. -/
structure Command where
  name : String
  data : String
deriving DecidableEq, Repr

/-- The response writer (`http.ResponseWriter`): status code written by
`WriteHeader` (at most once; Go ignores superfluous calls), accumulated
headers, and accumulated body bytes. -/
structure ResponseWriter where
  statusCode : Option Nat
  headers : List (String × String)
  bodyOut : String
deriving DecidableEq, Repr

/-- Model of `w.WriteHeader(code)`: records the status; a second call is superfluous
and ignored by `net/http`. -/
def writeHeader (w : ResponseWriter) (code : Nat) : ResponseWriter :=
  if w.statusCode.isSome then w else { w with statusCode := some code }

/-- Model of `w.Header().Add(k, v)`: appends a header entry. -/
def headerAdd (w : ResponseWriter) (k v : String) : ResponseWriter :=
  { w with headers := w.headers ++ [(k, v)] }

/-- Model of `w.Header().Set(k, v)`: replaces any entries for the key. -/
def headerSet (w : ResponseWriter) (k v : String) : ResponseWriter :=
  { w with headers := (w.headers.filter (fun p => p.1 ≠ k)) ++ [(k, v)] }

/-- Model of `w.Write(bytes)`: an implicit 200 status if none was written yet, then the
bytes are appended to the body. -/
def bodyWrite (w : ResponseWriter) (s : String) : ResponseWriter :=
  let w := if w.statusCode.isSome then w else { w with statusCode := some 200 }
  { w with bodyOut := w.bodyOut ++ s }

/-- An inbound `*http.Request`, restricted to the parts the dispatcher reads:
method, URL path, the `Content-Type` header value (empty if unset), the result
of `io.ReadAll(r.Body)` (a read error or the bytes), and the parsed multipart
form fields backing `r.FormValue`. -/
structure HttpRequest where
  method : String
  path : String
  contentTypeHeader : String
  body : Except String String
  form : List (String × String)

/-- Model of `r.FormValue(key)` (`net/http`): the first form value for the key, or the
empty string when the field is absent. -/
def formValue (form : List (String × String)) (key : String) : String :=
  ((form.find? (fun p => p.1 == key)).map (fun p => p.2)).getD ""

/-- A `cadet.Response` directive (`response.go` line 8): `func(w http.ResponseWriter)`,
modelled as a response-writer transformer. -/
def Directive : Type := ResponseWriter → ResponseWriter

/-- Directive `cadet.Status` (`response.go` lines 24-28). -/
def Status (status : Nat) : Directive := fun w => writeHeader w status

/-- Directive `cadet.Text` (`response.go` lines 17-22). -/
def Text (text : String) : Directive := fun w =>
  bodyWrite (headerSet w "Content-Type" "text/plain; charset=utf-8") text

/-- The request view handed to handlers (`request.go` lines 8-12): the decoded
envelope plus the raw transport objects. -/
structure Request where
  command : Command
  rawResponse : ResponseWriter
  rawRequest : HttpRequest

/-- Method `Request.ReadCommand` (`request.go` lines 14-16): unmarshals the raw
payload bytes via a caller-chosen decoder (`json.Unmarshal` is external). -/
def Request.readCommand {α : Type} (decode : String → Option α) (r : Request) : Option α :=
  decode r.command.data

/-- A command handler `func(*Request, T) Response`; a `nil` Go function value
is `none`. -/
def Handler (T : Type) : Type := Request → T → Option Directive

/-- Trace events emitted by the model dispatcher at the points where the Go
code decodes the envelope (`getHandler` call), invokes a registered handler,
and applies a returned response directive. -/
inductive Event where
  | decodeAttempted
  | invoked (name : String) (data : String)
  | directiveApplied
deriving DecidableEq, Repr

/-- Type `http.HandlerFunc`, extended with the model's event trace. -/
def HandlerFunc : Type := HttpRequest → ResponseWriter → ResponseWriter × List Event

/-- Type `cadet.Middleware` (`cadet.go` line 26): `func(http.HandlerFunc) http.HandlerFunc`. -/
def Middleware : Type := HandlerFunc → HandlerFunc

/-- Model of `strings.Split(s, ";")[0]`: the prefix of `s` before the first `;`
(the whole of `s` when it contains no `;`). -/
def splitSemiHead (s : String) : String :=
  String.mk (s.data.takeWhile (fun c => c ≠ ';'))

/-- Model of `strings.ToLower`: character-wise lowering (`Char.toLower` only affects
basic latin letters, as Go's `ToLower` does on ASCII). -/
def goToLower (s : String) : String :=
  String.mk (s.data.map Char.toLower)

/-- The mutable server state `Server[T]` (`cadet.go` lines 33-39).
`handlers` models the Go map as an insertion list read through
`lookupHandler` (first match wins, so prepending models map overwrite);
`middleware` records the user middleware installed by `use` (`nil` handler
chain state is the empty list); `strictMode` is the flag set by `serveHTTP`.
The embedded `http.Server` is external; only its `Addr` (from `Config.Bind`)
is kept. -/
structure Server (T : Type) where
  addr : String
  handlers : List (String × Handler T)
  path : String
  context : T
  strictMode : Bool
  middleware : List Middleware

/-- Go map read `s.handlers[name]` (`nil` when absent). -/
def lookupHandler {T : Type} (hs : List (String × Handler T)) (name : String) :
    Option (Handler T) :=
  (hs.find? (fun p => p.1 == name)).map (fun p => p.2)

/-- Constructor `NewServer` (`cadet.go` lines 41-63).  Go mutates `*config` in place when
the path lacks a leading `/`; the model returns the updated `Config` together
with the fresh server.  `strings.HasPrefix(config.Path, "/")` is
`['/'].isPrefixOf config.Path.data`. -/
def newServer {T : Type} (config : Config) (context : T) : Config × Server T :=
  let config :=
    if ['/'].isPrefixOf config.Path.data then config
    else { config with Path := "/" ++ config.Path }
  (config,
    { addr := config.Bind
      handlers := []
      path := config.Path
      context := context
      strictMode := false
      middleware := [] })

/-- Method `Server.Command` (`cadet.go` lines 82-84): map assignment
`s.handlers[name] = handler`. -/
def Server.command {T : Type} (s : Server T) (name : String) (handler : Handler T) :
    Server T :=
  { s with handlers := (name, handler) :: s.handlers }

/-- A dynamically-typed argument to the variadic `Commands`: a string, a
handler of the expected signature, or a value of any other dynamic type (for
which both type assertions fail). -/
inductive Arg (T : Type) where
  | str (s : String)
  | handler (h : Handler T)
  | other

/-- The `for i, arg := range args` loop of `Commands` (`cadet.go` lines 91-114):
`i` is the running index, `currentName` the name seen at the preceding even
index.  A failed type assertion returns immediately, keeping the registrations
made so far. -/
def commandsLoop {T : Type} (s : Server T) (i : Nat) (currentName : String) :
    List (Arg T) → Server T × Option String
  | [] => (s, none)
  | arg :: rest =>
    if i % 2 == 0 then
      match arg with
      | .str name => commandsLoop s (i + 1) name rest
      | _ => (s, some "even arg must be command name")
    else
      match arg with
      | .handler h => commandsLoop (s.command currentName h) (i + 1) "" rest
      | _ => (s, some "odd arg must be command handler")

/-- Method `Server.Commands` (`cadet.go` lines 86-117): rejects an empty or odd
argument list up front, then walks the name/handler pairs. -/
def Server.commands {T : Type} (s : Server T) (args : List (Arg T)) :
    Server T × Option String :=
  if args.length == 0 || args.length % 2 != 0 then
    (s, some "args must be pairs of command names and handlers")
  else
    commandsLoop s 0 "" args

/-- Classifier `getContentType` (`cadet.go` lines 136-148): look the lowered text before
the first `;` of the `Content-Type` header up in the literal media-type map;
missing keys yield `ContentTypeUnknown`. -/
def getContentType (header : String) : ContentType :=
  let contentTypes : List (String × ContentType) :=
    [("application/json", ContentType.json), ("multipart/form-data", ContentType.multipart)]
  match contentTypes.find? (fun p => p.1 == goToLower (splitSemiHead header)) with
  | some p => p.2
  | none => ContentType.unknown

/-- The result of `getHandler` (`cadet.go` lines 150-184): Go returns
`(handler, command, err)`; a non-nil `err` is `decodeErr`, a nil handler with
nil error is `notFound`. -/
inductive HandlerLookup (T : Type) where
  | decodeErr
  | notFound
  | found (h : Handler T) (c : Command)

/-- Decoder `getHandler` (`cadet.go` lines 150-184).  For `ContentTypeJSON` the body
bytes are read (a read error aborts); for `ContentTypeMultipart` the
`command` form field is read (the empty string, which Go also returns for an
absent field, aborts).  The bytes are then unmarshalled into the envelope via
`parse` (modelling `json.Unmarshal`), and the name is looked up in the
handler map.  `getHandler` is only reached for the two recognized content
types; for `ContentTypeUnknown` the data stays nil and `json.Unmarshal(nil)`
always fails. -/
def Server.getHandler {T : Type} (s : Server T) (parse : String → Option Command)
    (r : HttpRequest) (contentType : ContentType) : HandlerLookup T :=
  let dataE : Except Unit String :=
    match contentType with
    | .json =>
      match r.body with
      | .error _ => .error ()
      | .ok body => .ok body
    | .multipart =>
      let body := formValue r.form "command"
      if body = "" then .error () else .ok body
    | .unknown => .error ()
  match dataE with
  | .error _ => .decodeErr
  | .ok data =>
    match parse data with
    | none => .decodeErr
    | some command =>
      match lookupHandler s.handlers command.name with
      | none => .notFound
      | some handler => .found handler command

/-- Dispatcher `executeHandler` (`cadet.go` lines 199-227): classify the content type
(415 when unknown), check the method (405 + `Allow: POST` otherwise), decode
and look up the handler (422 on decode error, 404 on unknown command), invoke
the handler once, and apply a returned directive once. -/
def Server.executeHandler {T : Type} (s : Server T) (parse : String → Option Command) :
    HandlerFunc := fun r w =>
  let contentType := getContentType r.contentTypeHeader
  if contentType = ContentType.unknown then
    (writeHeader w 415, [])
  else if r.method ≠ "POST" then
    (writeHeader (headerAdd w "Allow" "POST") 405, [])
  else
    match s.getHandler parse r contentType with
    | .decodeErr => (writeHeader w 422, [.decodeAttempted])
    | .notFound => (writeHeader w 404, [.decodeAttempted])
    | .found handler command =>
      match handler ⟨command, w, r⟩ s.context with
      | none => (w, [.decodeAttempted, .invoked command.name command.data])
      | some responder =>
        (responder w, [.decodeAttempted, .invoked command.name command.data, .directiveApplied])

/-- Guard `withStrictPath` (`cadet.go` lines 186-197).  The returned closure reads
`s.strictMode` and `s.path` live on every request; they are therefore explicit
arguments here and the callers pass the current server state. -/
def withStrictPath (strictMode : Bool) (path : String) : Middleware := fun h r w =>
  if strictMode = false ∧ path = "/" ∧ r.path ≠ "/" then
    (writeHeader w 404, [])
  else
    h r w

/-- The chain composition performed by `Use` (`cadet.go` lines 66-75): prepend
the strict-path guard to the user middleware, reverse the list in place, and
fold `handler = mw(handler)` starting from the terminal dispatcher. -/
def composeMiddleware (strict : Middleware) (mws : List Middleware)
    (terminal : HandlerFunc) : HandlerFunc :=
  ((strict :: mws).reverse).foldl (fun handler mw => mw handler) terminal

/-- Method `Server.Use` (`cadet.go` lines 65-80): installs a new chain, replacing any
previous one.  The composed closure is recomputed by `handlerFor` from the
current server state, since in Go all of `s.strictMode`, `s.path`,
`s.handlers` and `s.context` are read through the `s` pointer at request
time. -/
def Server.use {T : Type} (s : Server T) (mws : List Middleware) : Server T :=
  { s with middleware := mws }

/-- The handler installed on the server's mux: the strict-path guard wrapped
outermost around the user middleware around `executeHandler` (`cadet.go`
line 60 for the default, lines 65-80 after `Use`). -/
def Server.handlerFor {T : Type} (s : Server T) (parse : String → Option Command) :
    HandlerFunc :=
  composeMiddleware (withStrictPath s.strictMode s.path) s.middleware
    (s.executeHandler parse)

/-- Method `Server.ServeHTTP` (`cadet.go` lines 123-126): the embeddable
`http.Handler` entry point used when the server is mounted inside a
caller-owned router.  It sets `s.strictMode = true` and delegates the request
to the installed chain, which then reads the updated flag. -/
def Server.serveHTTP {T : Type} (s : Server T) (parse : String → Option Command)
    (r : HttpRequest) (w : ResponseWriter) :
    Server T × (ResponseWriter × List Event) :=
  let s' := { s with strictMode := true }
  (s', s'.handlerFor parse r w)

/-- A request arriving through the server's own listener (standalone serving
via `Start`): the mux dispatches straight to the installed chain; no server
state changes. -/
def Server.handleStandalone {T : Type} (s : Server T) (parse : String → Option Command)
    (r : HttpRequest) (w : ResponseWriter) :
    Server T × (ResponseWriter × List Event) :=
  (s, s.handlerFor parse r w)

/-- Method `Server.Start` (`cadet.go` lines 128-130): delegates to
`http.Server.ListenAndServe` (external transport); it touches no server
state. -/
def Server.start {T : Type} (s : Server T) : Server T := s

/-- Method `Server.Stop` (`cadet.go` lines 132-134): delegates to
`http.Server.Shutdown` (external transport); it touches no server state. -/
def Server.stop {T : Type} (s : Server T) : Server T := s

theorem char_toNat_ofNat_valid {n : Nat} (h : n.isValidChar) : (Char.ofNat n).toNat = n := by
  rw [Char.ofNat, dif_pos h]
  simp [Char.ofNatAux, Char.toNat, UInt32.toNat]

theorem char_toLower_eq_semi_iff (c : Char) : c.toLower = ';' ↔ c = ';' := by
  unfold Char.toLower
  by_cases h : c.toNat ≥ 65 ∧ c.toNat ≤ 90
  · rw [if_pos h]
    constructor
    · intro he
      have := congrArg Char.toNat he
      rw [char_toNat_ofNat_valid (Or.inl (by omega))] at this
      have hsemi : (';' : Char).toNat = 59 := by decide
      omega
    · intro he
      subst he
      have hsemi : (';' : Char).toNat = 59 := by decide
      omega
  · rw [if_neg h]

theorem char_toLower_idem (c : Char) : c.toLower.toLower = c.toLower := by
  unfold Char.toLower
  by_cases h : c.toNat ≥ 65 ∧ c.toNat ≤ 90
  · rw [if_pos h]
    rw [if_neg]
    rw [char_toNat_ofNat_valid (Or.inl (by omega))]
    omega
  · rw [if_neg h, if_neg h]

theorem splitSemiHead_goToLower (s : String) :
    splitSemiHead (goToLower s) = goToLower (splitSemiHead s) := by
  have hfun : ((fun c => decide (c ≠ ';')) ∘ Char.toLower) = (fun c : Char => decide (c ≠ ';')) := by
    funext c
    simp only [Function.comp]
    exact decide_eq_decide.mpr (not_congr (char_toLower_eq_semi_iff c))
  unfold splitSemiHead goToLower
  simp only [List.takeWhile_map, hfun]

theorem goToLower_idem (s : String) : goToLower (goToLower s) = goToLower s := by
  unfold goToLower
  congr 1
  rw [List.map_map]
  congr 1
  funext c
  exact char_toLower_idem c

theorem splitSemiHead_append_semi (a b : String) (h : ';' ∉ a.data) :
    splitSemiHead (a ++ ";" ++ b) = splitSemiHead a := by
  unfold splitSemiHead
  rw [String.data_append, String.data_append]
  have hpos : ∀ c ∈ a.data, (fun c => decide (c ≠ ';')) c = true := by
    intro c hc
    simp only [decide_eq_true_eq]
    intro he
    exact h (he ▸ hc)
  rw [List.append_assoc, List.takeWhile_append_of_pos hpos]
  have : (List.takeWhile (fun c => decide (c ≠ ';')) (";".data ++ b.data)) = [] := by
    simp [List.takeWhile]
  rw [this, List.append_nil]
  have : (List.takeWhile (fun c => decide (c ≠ ';')) a.data) = a.data :=
    List.takeWhile_eq_self_iff.mpr hpos
  rw [this]

theorem getContentType_goToLower (s : String) :
    getContentType (goToLower s) = getContentType s := by
  unfold getContentType
  rw [splitSemiHead_goToLower, goToLower_idem]

theorem getContentType_ignores_params (a b : String) (h : ';' ∉ a.data) :
    getContentType (a ++ ";" ++ b) = getContentType a := by
  unfold getContentType
  rw [splitSemiHead_append_semi a b h]

theorem getContentType_eq_unknown (s : String)
    (h1 : goToLower (splitSemiHead s) ≠ "application/json")
    (h2 : goToLower (splitSemiHead s) ≠ "multipart/form-data") :
    getContentType s = ContentType.unknown := by
  simp only [getContentType]
  rw [List.find?_cons_of_neg, List.find?_cons_of_neg, List.find?_nil]
  · simp only [beq_iff_eq]
    exact fun he => h2 he.symm
  · simp only [beq_iff_eq]
    exact fun he => h1 he.symm

/-- A decoder that always fails, for fixtures where the envelope is never
reached. -/
def parseNone : String → Option Command := fun _ => none

/-- A fresh response writer. -/
def w0 : ResponseWriter := ⟨none, [], ""⟩

/-- A fresh default-config server over a trivial context. -/
def serverA : Server Unit := (newServer ⟨"", ""⟩ ()).2

/-- GET request with an unrecognized content type. -/
def reqBadType : HttpRequest := ⟨"GET", "/", "application/fake", .ok "x", []⟩

/-- GET request with a recognized content type. -/
def reqGetJson : HttpRequest := ⟨"GET", "/", "application/json", .ok "x", []⟩

/-- C1: the dispatcher checks content kind before method: an unknown content
type gets 415 for every method and body without any decode attempt, and a
non-POST request with a recognized content type gets 405 with `Allow: POST`,
likewise before any decode attempt (the decoder `parse` is universally
quantified and the event trace is empty). -/
theorem c1_content_type_before_method : ∀ (T : Type) (s : Server T)
    (parse : String → Option Command) (r : HttpRequest) (w : ResponseWriter),
    (getContentType r.contentTypeHeader = ContentType.unknown →
      s.executeHandler parse r w = (writeHeader w 415, []))
    ∧ (getContentType r.contentTypeHeader ≠ ContentType.unknown → r.method ≠ "POST" →
      s.executeHandler parse r w = (writeHeader (headerAdd w "Allow" "POST") 405, [])) := by
  intro T s parse r w
  constructor
  · intro h
    simp only [Server.executeHandler]
    rw [if_pos h]
  · intro h hm
    simp only [Server.executeHandler]
    rw [if_neg h, if_pos hm]

/-- C1 witness: concrete instances of both branches. -/
theorem c1_witness :
    (getContentType reqBadType.contentTypeHeader = ContentType.unknown ∧
      serverA.executeHandler parseNone reqBadType w0 = (writeHeader w0 415, []))
    ∧ (getContentType reqGetJson.contentTypeHeader ≠ ContentType.unknown ∧
      reqGetJson.method ≠ "POST" ∧
      serverA.executeHandler parseNone reqGetJson w0 =
        (writeHeader (headerAdd w0 "Allow" "POST") 405, [])) :=
  ⟨⟨by decide, (c1_content_type_before_method Unit serverA parseNone reqBadType w0).1 (by decide)⟩,
   ⟨by decide, by decide,
    (c1_content_type_before_method Unit serverA parseNone reqGetJson w0).2 (by decide) (by decide)⟩⟩

/-- C3: the strict-path guard rejects with 404, before any decoding (the inner
handler is arbitrary and the trace empty), exactly when the embedded-serving
flag is unset (`strictMode = false`, i.e. the server is still in standalone
mode: its embeddable entry point `ServeHTTP` has never run), the configured
path is exactly `/`, and the request path is not `/`; requests dispatched
through the embeddable entry point (`serveHTTP`, used when mounted inside an
external router) run with the flag set and reach the dispatcher for every
sub-path. -/
theorem c3_strict_path : ∀ (T : Type) (s : Server T) (parse : String → Option Command)
    (inner : HandlerFunc) (r : HttpRequest) (w : ResponseWriter),
    (s.strictMode = false → s.path = "/" → r.path ≠ "/" →
      withStrictPath s.strictMode s.path inner r w = (writeHeader w 404, []))
    ∧ (s.strictMode = true → withStrictPath s.strictMode s.path inner r w = inner r w)
    ∧ (s.path ≠ "/" → withStrictPath s.strictMode s.path inner r w = inner r w)
    ∧ (r.path = "/" → withStrictPath s.strictMode s.path inner r w = inner r w)
    ∧ (s.middleware = [] →
      (s.serveHTTP parse r w).2 = s.executeHandler parse r w) := by
  intro T s parse inner r w
  refine ⟨?_, ?_, ?_, ?_, ?_⟩
  · intro h1 h2 h3
    simp only [withStrictPath]
    rw [if_pos ⟨h1, h2, h3⟩]
  · intro h1
    simp only [withStrictPath]
    rw [if_neg]
    simp [h1]
  · intro h1
    simp only [withStrictPath]
    rw [if_neg]
    simp [h1]
  · intro h1
    simp only [withStrictPath]
    rw [if_neg]
    simp [h1]
  · intro h1
    simp only [Server.serveHTTP, Server.handlerFor, composeMiddleware, h1]
    simp only [List.reverse_cons, List.reverse_nil, List.nil_append, List.foldl_cons,
      List.foldl_nil]
    simp only [withStrictPath]
    rw [if_neg]
    · rfl
    · simp

/-- A server configured at the root path, used by witnesses. -/
def serverSlash : Server Unit := (newServer ⟨"", "/"⟩ ()).2

/-- A POST to a sub-path of `/`. -/
def reqSub : HttpRequest := ⟨"POST", "/strict", "application/json", .ok "x", []⟩

/-- C3 witness: the guard 404s a sub-path POST on a fresh root-path server, and
the same request dispatched through the embeddable entry point reaches the
dispatcher. -/
theorem c3_witness :
    (serverSlash.strictMode = false ∧ serverSlash.path = "/" ∧ reqSub.path ≠ "/" ∧
      withStrictPath serverSlash.strictMode serverSlash.path
          (serverSlash.executeHandler parseNone) reqSub w0 = (writeHeader w0 404, []))
    ∧ (serverSlash.middleware = [] ∧
      (serverSlash.serveHTTP parseNone reqSub w0).2 =
        serverSlash.executeHandler parseNone reqSub w0) :=
  ⟨⟨rfl, rfl, by decide,
    (c3_strict_path Unit serverSlash parseNone (serverSlash.executeHandler parseNone)
      reqSub w0).1 rfl rfl (by decide)⟩,
   ⟨rfl, (c3_strict_path Unit serverSlash parseNone (serverSlash.executeHandler parseNone)
      reqSub w0).2.2.2.2 rfl⟩⟩

/-- A middleware that logs `pre`/`post` header entries around the inner call. -/
def logMw (tag : String) : Middleware := fun h r w =>
  let res := h r (headerAdd w "pre" tag)
  (headerAdd res.1 "post" tag, res.2)

/-- A terminal handler that records that it ran. -/
def passHandler : HandlerFunc := fun _ w => (headerAdd w "handler" "run", [])

/-- A plain POST request to `/`. -/
def reqRoot : HttpRequest := ⟨"POST", "/", "application/json", .ok "x", []⟩

/-- C4: the chain built by `Use` from user middleware `[A, B, C]` puts the
strict-path guard outermost, then `A`, `B`, `C`, with the terminal dispatcher
innermost; this holds for every server on which `use` is installed, and in the
default configuration (where `Use` is never called) the installed handler is
the guard directly around the dispatcher.  The final conjunct runs a concrete
logging chain: pre-handler effects happen in order A, B, C and post-handler
effects in order C, B, A. -/
theorem c4_middleware_order : ∀ (A B C : Middleware) (strict : Middleware)
    (terminal : HandlerFunc) (T : Type) (s : Server T) (cfg : Config) (ctx : T)
    (parse : String → Option Command),
    composeMiddleware strict [A, B, C] terminal = strict (A (B (C terminal)))
    ∧ composeMiddleware strict [] terminal = strict terminal
    ∧ (s.use [A, B, C]).handlerFor parse =
        withStrictPath s.strictMode s.path
          (A (B (C ((s.use [A, B, C]).executeHandler parse))))
    ∧ ((newServer cfg ctx).2).middleware = []
    ∧ ((newServer cfg ctx).2).handlerFor parse =
        withStrictPath false ((newServer cfg ctx).2).path
          (((newServer cfg ctx).2).executeHandler parse)
    ∧ composeMiddleware (withStrictPath true "/") [logMw "A", logMw "B", logMw "C"]
        passHandler reqRoot w0 =
        (⟨none, [("pre", "A"), ("pre", "B"), ("pre", "C"), ("handler", "run"),
          ("post", "C"), ("post", "B"), ("post", "A")], ""⟩, []) := by
  intro A B C strict terminal T s cfg ctx parse
  exact ⟨rfl, rfl, rfl, rfl, rfl, rfl⟩

/-- C6: the classifier maps `application/json` to `JSONBody` and
`multipart/form-data` to `Multipart`; classification is invariant under
lowercasing the header and under appending `;` plus parameters, so
`application/json; charset=utf-8` classifies as `JSONBody`; every header whose
lowered text before the first `;` is neither recognized media type yields
`Unknown`.  The classifier is a pure function of the header string. -/
theorem c6_classifier :
    getContentType "application/json" = ContentType.json
    ∧ getContentType "multipart/form-data" = ContentType.multipart
    ∧ getContentType "application/json; charset=utf-8" = ContentType.json
    ∧ (∀ s, getContentType (goToLower s) = getContentType s)
    ∧ (∀ a b, ';' ∉ a.data → getContentType (a ++ ";" ++ b) = getContentType a)
    ∧ (∀ s, goToLower (splitSemiHead s) ≠ "application/json" →
        goToLower (splitSemiHead s) ≠ "multipart/form-data" →
        getContentType s = ContentType.unknown) :=
  ⟨by decide, by decide, by decide, getContentType_goToLower,
   getContentType_ignores_params, getContentType_eq_unknown⟩

/-- C6 witness: the parameter-dropping and unknown-value branches at concrete
headers. -/
theorem c6_witness :
    (';' ∉ "multipart/form-data".data ∧
      getContentType ("multipart/form-data" ++ ";" ++ " boundary=x") =
        getContentType "multipart/form-data")
    ∧ (goToLower (splitSemiHead "text/plain") ≠ "application/json" ∧
      goToLower (splitSemiHead "text/plain") ≠ "multipart/form-data" ∧
      getContentType "text/plain" = ContentType.unknown) :=
  ⟨⟨by decide, c6_classifier.2.2.2.2.1 "multipart/form-data" " boundary=x" (by decide)⟩,
   ⟨by decide, by decide, c6_classifier.2.2.2.2.2 "text/plain" (by decide) (by decide)⟩⟩

/-- C5: for a POST with a recognized content type, every decode failure — a
body read error, bytes the envelope unmarshaller rejects, or a multipart
`command` field that is absent or empty (Go's `FormValue` returns the empty
string in both cases) — produces the single outcome 422. -/
theorem c5_decode_failure_422 : ∀ (T : Type) (s : Server T)
    (parse : String → Option Command) (r : HttpRequest) (w : ResponseWriter) (b : String),
    r.method = "POST" →
    (getContentType r.contentTypeHeader = ContentType.json →
      ((∃ e, r.body = .error e) ∨ (∃ bs, r.body = .ok bs ∧ parse bs = none)) →
      s.executeHandler parse r w = (writeHeader w 422, [.decodeAttempted]))
    ∧ (getContentType r.contentTypeHeader = ContentType.multipart →
      formValue r.form "command" = "" →
      s.executeHandler parse r w = (writeHeader w 422, [.decodeAttempted]))
    ∧ (r.form.find? (fun p => p.1 == "command") = none → formValue r.form "command" = "")
    ∧ (getContentType r.contentTypeHeader = ContentType.multipart →
      formValue r.form "command" = b → b ≠ "" → parse b = none →
      s.executeHandler parse r w = (writeHeader w 422, [.decodeAttempted])) := by
  intro T s parse r w b hm
  have hmf : ¬ r.method ≠ "POST" := by simp [hm]
  refine ⟨?_, ?_, ?_, ?_⟩
  · intro hct hbad
    simp only [Server.executeHandler]
    rw [hct, if_neg (by simp), if_neg hmf]
    rcases hbad with ⟨e, he⟩ | ⟨bs, hbs, hp⟩
    · simp only [Server.getHandler, he]
    · simp only [Server.getHandler, hbs, hp]
  · intro hct hempty
    simp only [Server.executeHandler]
    rw [hct, if_neg (by simp), if_neg hmf]
    simp only [Server.getHandler, hempty]
    simp
  · intro hnone
    simp [formValue, hnone]
  · intro hct hfv hne hp
    simp only [Server.executeHandler]
    rw [hct, if_neg (by simp), if_neg hmf]
    simp only [Server.getHandler, hfv]
    rw [if_neg hne]
    simp only [hp]

/-- A POST request with JSON content type and an unreadable body. -/
def reqReadErr : HttpRequest := ⟨"POST", "/", "application/json", .error "broken pipe", []⟩

/-- A multipart POST whose `command` field is empty. -/
def reqEmptyCmd : HttpRequest :=
  ⟨"POST", "/", "multipart/form-data; boundary=x", .ok "", [("command", "")]⟩

/-- C5 witness: a JSON POST with a read error and a multipart POST with an
empty `command` field both get 422. -/
theorem c5_witness :
    (reqReadErr.method = "POST" ∧
      getContentType reqReadErr.contentTypeHeader = ContentType.json ∧
      serverA.executeHandler parseNone reqReadErr w0 = (writeHeader w0 422, [.decodeAttempted]))
    ∧ (reqEmptyCmd.method = "POST" ∧
      getContentType reqEmptyCmd.contentTypeHeader = ContentType.multipart ∧
      formValue reqEmptyCmd.form "command" = "" ∧
      serverA.executeHandler parseNone reqEmptyCmd w0 = (writeHeader w0 422, [.decodeAttempted])) :=
  ⟨⟨rfl, by decide,
    (c5_decode_failure_422 Unit serverA parseNone reqReadErr w0 "" rfl).1 (by decide)
      (Or.inl ⟨"broken pipe", rfl⟩)⟩,
   ⟨rfl, by decide, by decide,
    (c5_decode_failure_422 Unit serverA parseNone reqEmptyCmd w0 "" rfl).2.1 (by decide)
      (by decide)⟩⟩

/-- C7: a POST with recognized content type whose body decodes to an envelope
naming an unregistered command gets 404 with the handler map untouched, and
the status written equals the one the strict-path guard writes on rejection —
indistinguishable to the client. -/
theorem c7_unknown_command_404 : ∀ (T : Type) (s : Server T)
    (parse : String → Option Command) (r : HttpRequest) (w : ResponseWriter)
    (bs : String) (c : Command) (inner : HandlerFunc),
    r.method = "POST" →
    (getContentType r.contentTypeHeader = ContentType.json →
      r.body = .ok bs → parse bs = some c → lookupHandler s.handlers c.name = none →
      s.executeHandler parse r w = (writeHeader w 404, [.decodeAttempted]))
    ∧ (getContentType r.contentTypeHeader = ContentType.multipart →
      formValue r.form "command" = bs → bs ≠ "" → parse bs = some c →
      lookupHandler s.handlers c.name = none →
      s.executeHandler parse r w = (writeHeader w 404, [.decodeAttempted]))
    ∧ ((s.serveHTTP parse r w).1).handlers = s.handlers
    ∧ (r.path ≠ "/" → (withStrictPath false "/" inner r w).1 = writeHeader w 404) := by
  intro T s parse r w bs c inner hm
  have hmf : ¬ r.method ≠ "POST" := by simp [hm]
  refine ⟨?_, ?_, rfl, ?_⟩
  · intro hct hb hp hl
    simp only [Server.executeHandler]
    rw [hct, if_neg (by simp), if_neg hmf]
    simp only [Server.getHandler, hb, hp, hl]
  · intro hct hfv hne hp hl
    simp only [Server.executeHandler]
    rw [hct, if_neg (by simp), if_neg hmf]
    simp only [Server.getHandler, hfv]
    rw [if_neg hne]
    simp only [hp, hl]
  · intro hpath
    simp only [withStrictPath]
    rw [if_pos ⟨trivial, trivial, hpath⟩]

/-- A handler that returns the 201 status directive. -/
def handlerStatus : Handler Unit := fun _ _ => some (Status 201)

/-- A root-path server with `cmd` registered. -/
def serverCmd : Server Unit := ((newServer ⟨"", "/"⟩ ()).2).command "cmd" handlerStatus

/-- A concrete envelope unmarshaller: one body decodes to the `cmd` envelope
with payload `payload`, one to an envelope naming the unregistered `nope`,
everything else fails. -/
def parseFix : String → Option Command := fun s =>
  if s == "envelope-cmd" then some ⟨"cmd", "payload"⟩
  else if s == "envelope-nope" then some ⟨"nope", ""⟩
  else none

/-- JSON POST whose body decodes to an envelope naming an unregistered command. -/
def reqNope : HttpRequest := ⟨"POST", "/", "application/json", .ok "envelope-nope", []⟩

/-- C7 witness: the unregistered command gets 404, the handler map is
unchanged by the embedded entry point, and the guard writes the same 404 on a
sub-path. -/
theorem c7_witness :
    (reqNope.method = "POST" ∧
      getContentType reqNope.contentTypeHeader = ContentType.json ∧
      parseFix "envelope-nope" = some ⟨"nope", ""⟩ ∧
      lookupHandler serverCmd.handlers "nope" = none ∧
      serverCmd.executeHandler parseFix reqNope w0 = (writeHeader w0 404, [.decodeAttempted]))
    ∧ (reqSub.path ≠ "/" ∧
      (withStrictPath false "/" passHandler reqSub w0).1 = writeHeader w0 404) :=
  ⟨⟨rfl, by decide, rfl, rfl,
    (c7_unknown_command_404 Unit serverCmd parseFix reqNope w0 "envelope-nope" ⟨"nope", ""⟩
      passHandler rfl).1 (by decide) rfl rfl rfl⟩,
   ⟨by decide,
    (c7_unknown_command_404 Unit serverCmd parseFix reqSub w0 "" ⟨"nope", ""⟩
      passHandler rfl).2.2.2 (by decide)⟩⟩

/-- C8: when the decoded envelope names a registered command, the dispatcher
invokes that handler exactly once, passing the request view carrying the
envelope verbatim (name and raw payload) and the server's shared context; a
`nil` response leaves the writer untouched, and a returned directive is
applied to the writer exactly once. -/
theorem c8_handler_invoked_once : ∀ (T : Type) (s : Server T)
    (parse : String → Option Command) (r : HttpRequest) (w : ResponseWriter)
    (h : Handler T) (c : Command),
    r.method = "POST" →
    getContentType r.contentTypeHeader ≠ ContentType.unknown →
    s.getHandler parse r (getContentType r.contentTypeHeader) = .found h c →
    (h ⟨c, w, r⟩ s.context = none →
      s.executeHandler parse r w = (w, [.decodeAttempted, .invoked c.name c.data]))
    ∧ (∀ d, h ⟨c, w, r⟩ s.context = some d →
      s.executeHandler parse r w =
        (d w, [.decodeAttempted, .invoked c.name c.data, .directiveApplied]))
    ∧ (s.executeHandler parse r w).2.count (.invoked c.name c.data) = 1
    ∧ (s.executeHandler parse r w).2.count .directiveApplied ≤ 1 := by
  intro T s parse r w h c hm hct hfound
  have hmf : ¬ r.method ≠ "POST" := by simp [hm]
  have hbase : ∀ z : ResponseWriter × List Event,
      (match h ⟨c, w, r⟩ s.context with
        | none => (w, [Event.decodeAttempted, Event.invoked c.name c.data])
        | some responder =>
          (responder w,
            [Event.decodeAttempted, Event.invoked c.name c.data, Event.directiveApplied])) = z →
      s.executeHandler parse r w = z := by
    intro z hz
    simp only [Server.executeHandler]
    rw [if_neg hct, if_neg hmf, hfound]
    exact hz
  refine ⟨?_, ?_, ?_, ?_⟩
  · intro hnone
    exact hbase _ (by rw [hnone])
  · intro d hd
    exact hbase _ (by rw [hd])
  · rcases he : h ⟨c, w, r⟩ s.context with _ | d
    · rw [hbase _ (by rw [he])]
      simp [List.count_cons]
    · rw [hbase _ (by rw [he])]
      simp [List.count_cons]
  · rcases he : h ⟨c, w, r⟩ s.context with _ | d
    · rw [hbase _ (by rw [he])]
      simp [List.count_cons]
    · rw [hbase _ (by rw [he])]
      simp [List.count_cons]

/-- JSON POST whose body decodes to the registered `cmd` envelope. -/
def reqCmd : HttpRequest := ⟨"POST", "/", "application/json", .ok "envelope-cmd", []⟩

/-- C8 witness: the registered handler runs once on the verbatim payload and
its status directive is applied once. -/
theorem c8_witness :
    reqCmd.method = "POST"
    ∧ getContentType reqCmd.contentTypeHeader ≠ ContentType.unknown
    ∧ serverCmd.getHandler parseFix reqCmd (getContentType reqCmd.contentTypeHeader) =
        .found handlerStatus ⟨"cmd", "payload"⟩
    ∧ serverCmd.executeHandler parseFix reqCmd w0 =
        (Status 201 w0, [.decodeAttempted, .invoked "cmd" "payload", .directiveApplied]) :=
  ⟨rfl, by decide, rfl,
   (c8_handler_invoked_once Unit serverCmd parseFix reqCmd w0 handlerStatus ⟨"cmd", "payload"⟩
      rfl (by decide) rfl).2.1 (Status 201) rfl⟩

/-- A handler used in the bulk-registration scenario. -/
def handlerA : Handler Unit := fun _ _ => none

/-- C2 counterexample: `Commands("cmd1", handlerA, "cmd2")` has an odd
argument count, so the code reports failure from the up-front parity check
and returns before the loop: contrary to the claim, `cmd1` is NOT registered
afterwards. -/
theorem c2_counterexample :
    ((serverA.commands [.str "cmd1", .handler handlerA, .str "cmd2"]).2 =
      some "args must be pairs of command names and handlers")
    ∧ (serverA.commands [.str "cmd1", .handler handlerA, .str "cmd2"]).1 = serverA
    ∧ lookupHandler
        ((serverA.commands [.str "cmd1", .handler handlerA, .str "cmd2"]).1).handlers
        "cmd1" = none :=
  ⟨rfl, rfl, rfl⟩

/-- C2 amended: bulk registration fails on a zero or odd argument count, but
that check runs before any pair is processed, so nothing is registered in the
`("cmd1", handlerA, "cmd2")` scenario; a non-string at an even position or a
non-handler at an odd position fails inside the loop, and there the pairs
registered before the failing position remain registered (no rollback). -/
theorem c2_bulk_registration : ∀ (T : Type) (s : Server T) (args : List (Arg T))
    (h1 : Handler T) (a : Arg T),
    (args.length % 2 ≠ 0 →
      s.commands args = (s, some "args must be pairs of command names and handlers"))
    ∧ s.commands [] = (s, some "args must be pairs of command names and handlers")
    ∧ s.commands [.handler h1, a] = (s, some "even arg must be command name")
    ∧ s.commands [.str "cmd1", .handler h1, .str "cmd2", .str "x"] =
        (s.command "cmd1" h1, some "odd arg must be command handler")
    ∧ lookupHandler (s.command "cmd1" h1).handlers "cmd1" = some h1 := by
  intro T s args h1 a
  refine ⟨?_, rfl, ?_, ?_, rfl⟩
  · intro hodd
    have hc : (args.length == 0 || args.length % 2 != 0) = true := by
      simp only [Bool.or_eq_true, beq_iff_eq, bne_iff_ne, ne_eq]
      exact Or.inr hodd
    simp only [Server.commands]
    rw [if_pos hc]
  · cases a <;> simp [Server.commands, commandsLoop]
  · simp [Server.commands, commandsLoop]

/-- C2 witness: a single-name argument list is odd, so the whole call fails. -/
theorem c2_witness :
    ([Arg.str "a"] : List (Arg Unit)).length % 2 ≠ 0
    ∧ serverA.commands [Arg.str "a"] =
        (serverA, some "args must be pairs of command names and handlers") :=
  ⟨by decide, (c2_bulk_registration Unit serverA [Arg.str "a"] handlerA Arg.other).1 (by decide)⟩

/-- Loop `commandsLoop` never touches `strictMode`. -/
theorem commandsLoop_strictMode {T : Type} (args : List (Arg T)) :
    ∀ (s : Server T) (i : Nat) (cur : String),
    ((commandsLoop s i cur args).1).strictMode = s.strictMode := by
  induction args with
  | nil => intro s i cur; rfl
  | cons a rest ih =>
    intro s i cur
    cases a with
    | str name =>
      rw [commandsLoop]
      split
      · exact ih s (i + 1) name
      · rfl
    | handler h =>
      rw [commandsLoop]
      split
      · rfl
      · exact ih (s.command cur h) (i + 1) ""
    | other =>
      rw [commandsLoop]
      split
      all_goals first
        | rfl
        | (intro x hx; exact Arg.noConfusion hx)

/-- Bulk `Commands` never touches `strictMode`. -/
theorem commands_strictMode {T : Type} (s : Server T) (args : List (Arg T)) :
    ((s.commands args).1).strictMode = s.strictMode := by
  simp only [Server.commands]
  split
  · rfl
  · exact commandsLoop_strictMode args s 0 ""

/-- C9 counterexample: on a fresh server, invoking the server's own top-level
serve entry point (`Start`, i.e. `ListenAndServe`) leaves the mode flag
unset — the flag is instead set by the embeddable entry point `ServeHTTP`. -/
theorem c9_counterexample :
    serverA.strictMode = false
    ∧ (serverA.start).strictMode = false
    ∧ ((serverA.serveHTTP parseNone reqRoot w0).1).strictMode = true :=
  ⟨rfl, rfl, rfl⟩

/-- C9 amended: the mode flag (`strictMode`) is a one-way transition, but the
transition happens at the embeddable handler entry point (`ServeHTTP`), which
sets it permanently the first time it runs; the server's own listen/serve
entry point (`Start`) touches no state, no operation ever resets the flag,
and the strict-path guard reads it on every request (passing everything
through once it is set, rejecting sub-paths of `/` only while it is unset). -/
theorem c9_one_way_flag : ∀ (T : Type) (s : Server T) (parse : String → Option Command)
    (r : HttpRequest) (w : ResponseWriter) (n : String) (h : Handler T)
    (args : List (Arg T)) (mws : List Middleware) (inner : HandlerFunc),
    ((s.serveHTTP parse r w).1).strictMode = true
    ∧ s.start = s
    ∧ (s.stop).strictMode = s.strictMode
    ∧ (s.command n h).strictMode = s.strictMode
    ∧ ((s.commands args).1).strictMode = s.strictMode
    ∧ (s.use mws).strictMode = s.strictMode
    ∧ (s.strictMode = true → withStrictPath s.strictMode s.path inner r w = inner r w)
    ∧ (s.strictMode = false → s.path = "/" → r.path ≠ "/" →
        withStrictPath s.strictMode s.path inner r w = (writeHeader w 404, [])) := by
  intro T s parse r w n h args mws inner
  refine ⟨rfl, rfl, rfl, rfl, commands_strictMode s args, rfl, ?_, ?_⟩
  · intro h1
    simp only [withStrictPath]
    rw [if_neg]
    simp [h1]
  · intro h1 h2 h3
    simp only [withStrictPath]
    rw [if_pos ⟨h1, h2, h3⟩]

/-- The embedded-mode server obtained by dispatching one request through the
embeddable entry point. -/
def serverEmb : Server Unit := (serverSlash.serveHTTP parseNone reqSub w0).1

/-- C9 witness: once the flag is set the guard passes a sub-path request
through; while unset it rejects the same request. -/
theorem c9_witness :
    (serverEmb.strictMode = true ∧
      withStrictPath serverEmb.strictMode serverEmb.path passHandler reqSub w0 =
        passHandler reqSub w0)
    ∧ (serverSlash.strictMode = false ∧ serverSlash.path = "/" ∧ reqSub.path ≠ "/" ∧
      withStrictPath serverSlash.strictMode serverSlash.path passHandler reqSub w0 =
        (writeHeader w0 404, [])) :=
  ⟨⟨rfl, (c9_one_way_flag Unit serverEmb parseNone reqSub w0 "" handlerA [] []
      passHandler).2.2.2.2.2.2.1 rfl⟩,
   ⟨rfl, rfl, by decide, (c9_one_way_flag Unit serverSlash parseNone reqSub w0 "" handlerA [] []
      passHandler).2.2.2.2.2.2.2 rfl rfl (by decide)⟩⟩

/-- C10: `NewServer` writes through the caller's `*Config`: a path without a
leading `/` is overwritten with `/` prepended; afterwards the config's path
always starts with `/` and equals the server's command path, and the bind
address is untouched.  A path already starting with `/` leaves the config
identical. -/
theorem c10_newServer_config : ∀ (T : Type) (cfg : Config) (ctx : T),
    ['/'].isPrefixOf ((newServer cfg ctx).1).Path.data = true
    ∧ ((newServer cfg ctx).1).Path = ((newServer cfg ctx).2).path
    ∧ ((newServer cfg ctx).1).Bind = cfg.Bind
    ∧ (['/'].isPrefixOf cfg.Path.data = false →
        ((newServer cfg ctx).1).Path = "/" ++ cfg.Path)
    ∧ (['/'].isPrefixOf cfg.Path.data = true → (newServer cfg ctx).1 = cfg) := by
  intro T cfg ctx
  by_cases hp : ['/'].isPrefixOf cfg.Path.data = true
  · refine ⟨?_, rfl, ?_, ?_, ?_⟩
    · simp [newServer, hp]
    · simp [newServer, hp]
    · intro hf
      rw [hp] at hf
      exact absurd hf (by simp)
    · intro _
      simp [newServer, hp]
  · have hp' : ['/'].isPrefixOf cfg.Path.data = false := by
      simp only [Bool.not_eq_true] at hp
      exact hp
    refine ⟨?_, rfl, ?_, ?_, ?_⟩
    · simp only [newServer, hp', Bool.false_eq_true, if_false]
      rw [String.data_append]
      simp [List.isPrefixOf]
    · simp [newServer, hp']
    · intro _
      simp [newServer, hp']
    · intro ht
      rw [hp'] at ht
      exact absurd ht (by simp)

/-- C10 witness: a slashless path is rewritten in the caller's config, and a
slashed path is left untouched. -/
theorem c10_witness :
    (['/'].isPrefixOf ("exec" : String).data = false ∧
      ((newServer ⟨"addr", "exec"⟩ ()).1).Path = "/" ++ "exec")
    ∧ (['/'].isPrefixOf ("/cmd" : String).data = true ∧
      (newServer ⟨"addr", "/cmd"⟩ ()).1 = ⟨"addr", "/cmd"⟩) :=
  ⟨⟨by decide, (c10_newServer_config Unit ⟨"addr", "exec"⟩ ()).2.2.2.1 (by decide)⟩,
   ⟨by decide, (c10_newServer_config Unit ⟨"addr", "/cmd"⟩ ()).2.2.2.2 (by decide)⟩⟩
